import Mathlib

/-!
Verification of the CodeBase-KG content-generation pipeline.

This file shallowly embeds the rate/budget planner, queue selection,
retry wrappers, slugification, response extraction and the
completion-log handling of the repository's generator scripts, and
proves (or refutes) the specified properties about them.

Python integers become `Int`/`Nat`, Python strings become `String` or
`List Char` (ASCII-level), exceptions become `Except`, and stateful
loops become explicit recursion over the loop state.
-/

/-! ## Rate/budget planner (generator/gemini_polish.py) -/

/-- Provider rate limits as read from the environment
(GEMINI_RPD / GEMINI_RPM / GEMINI_TPM in gemini_polish.py). -/
structure GeminiLimits where
  rpd : Int
  rpm : Int
  tpm : Int

/-- gemini_polish.py: RPD_safe = max(1, GEMINI_RPD - 1). -/
def RPD_safe (L : GeminiLimits) : Int := max 1 (L.rpd - 1)

/-- gemini_polish.py: RPM_safe = max(1, GEMINI_RPM - 1). -/
def RPM_safe (L : GeminiLimits) : Int := max 1 (L.rpm - 1)

/-- gemini_polish.py: TPM_safe = max(1, GEMINI_TPM - 1). -/
def TPM_safe (L : GeminiLimits) : Int := max 1 (L.tpm - 1)

/-- gemini_polish.py compute_effective_daily_requests:
tokens_per_request = k * t_avg. -/
def tokens_per_request (k t_avg : Int) : Int := k * t_avg

/-- gemini_polish.py compute_effective_daily_requests:
max_req_per_min_by_tpm = TPM_safe // tokens_per_request if
tokens_per_request>0 else RPM_safe.  Python `//` on a positive divisor
is floor division, i.e. `Int.fdiv`. -/
def max_req_per_min_by_tpm (L : GeminiLimits) (k t_avg : Int) : Int :=
  if tokens_per_request k t_avg > 0 then
    Int.fdiv (TPM_safe L) (tokens_per_request k t_avg)
  else RPM_safe L

/-- gemini_polish.py: max_req_per_min = min(RPM_safe, max_req_per_min_by_tpm). -/
def max_req_per_min (L : GeminiLimits) (k t_avg : Int) : Int :=
  min (RPM_safe L) (max_req_per_min_by_tpm L k t_avg)

/-- gemini_polish.py: requests_per_day_effective =
min(RPD_safe, max_req_per_min * 60 * 24). -/
def compute_effective_daily_requests (L : GeminiLimits) (k t_avg : Int) : Int :=
  min (RPD_safe L) (max_req_per_min L k t_avg * 60 * 24)

/-- The default limits set in gemini_polish.py / the workflow:
RPD=20, RPM=5, TPM=250000. -/
def defaultGeminiLimits : GeminiLimits := { rpd := 20, rpm := 5, tpm := 250000 }

/-- Claim C1: with limits RPD=20, RPM=5, TPM=250000, batch size k=1 and
average tokens per item 2000, the safety-margin limits are RPD_safe=19,
RPM_safe=4, TPM_safe=249999; the per-minute cap implied by the token
budget is 249999 // 2000 = 124, which is then bounded by RPM_safe=4;
and compute_effective_daily_requests returns min(19, 4*60*24) = 19. -/
theorem C1_budget_planner_example :
    RPD_safe defaultGeminiLimits = 19 ∧
    RPM_safe defaultGeminiLimits = 4 ∧
    TPM_safe defaultGeminiLimits = 249999 ∧
    max_req_per_min_by_tpm defaultGeminiLimits 1 2000 = 124 ∧
    max_req_per_min defaultGeminiLimits 1 2000 = 4 ∧
    compute_effective_daily_requests defaultGeminiLimits 1 2000 =
      min 19 (4 * 60 * 24) ∧
    compute_effective_daily_requests defaultGeminiLimits 1 2000 = 19 := by
  refine ⟨rfl, rfl, rfl, ?_, ?_, ?_, ?_⟩ <;> decide

/-- Claim C9, counterexample: the safety margin is not `limit - 1` for
every configured limit: with GEMINI_RPD = 1 the code computes
max(1, 1-1) = 1, not 0. -/
theorem C9_cex_safety_margin_not_always_minus_one :
    RPD_safe { rpd := 1, rpm := 1, tpm := 1 } = 1 ∧
    (1 : Int) - 1 = 0 ∧ (1 : Int) ≠ 0 := by
  decide

/-- Claim C9 (amended): the safety-margin limit is max(1, L - 1) for every
configured limit L; in particular it equals L - 1 exactly for every
limit L ≥ 2 (which holds for all the defaults). -/
theorem C9_safety_margin :
    ∀ L : GeminiLimits,
      RPD_safe L = max 1 (L.rpd - 1) ∧
      RPM_safe L = max 1 (L.rpm - 1) ∧
      TPM_safe L = max 1 (L.tpm - 1) ∧
      (2 ≤ L.rpd → RPD_safe L = L.rpd - 1) ∧
      (2 ≤ L.rpm → RPM_safe L = L.rpm - 1) ∧
      (2 ≤ L.tpm → TPM_safe L = L.tpm - 1) := by
  intro L
  refine ⟨rfl, rfl, rfl, ?_, ?_, ?_⟩ <;>
    · intro h
      simp only [RPD_safe, RPM_safe, TPM_safe]
      omega

/-- Witness for C9_safety_margin at the default limits. -/
theorem C9_safety_margin_witness :
    RPD_safe defaultGeminiLimits = 20 - 1 :=
  (C9_safety_margin defaultGeminiLimits).2.2.2.1 (by decide)

/-! ## Queue selection (generator/generate.py and generator/generate_chapters.py) -/

/-- generate.py: the set of small, historically-fragile languages that may
be grouped two-at-a-time. -/
def SMALL_LANGUAGES : List String :=
  ["Lua", "Nim", "Crystal", "Smalltalk", "Haxe", "Zig", "Racket"]

/-- generate.py: MAX_SMALL_PER_RUN = 2. -/
def MAX_SMALL_PER_RUN : Nat := 2

/-- generate.py pick_next: iterate over the ordered language list; skip
completed languages; at the first uncompleted language, if it is small,
group it with the immediately following list entry when that entry is
uncompleted, capped at MAX_SMALL_PER_RUN; otherwise return it alone;
return [] when every language is completed (or the list is empty). -/
def pick_next (languages : List String) (completed : List String) : List String :=
  match languages with
  | [] => []
  | lang :: rest =>
    if lang ∈ completed then pick_next rest completed
    else if lang ∈ SMALL_LANGUAGES then
      (lang :: (match rest with
        | next :: _ => if next ∈ completed then [] else [next]
        | [] => [])).take MAX_SMALL_PER_RUN
    else [lang]

/-- generate_chapters.py pick_next_language: the first language of the
configured list that is not in the completed set, if any. -/
def pick_next_language (languages : List String) (completed : List String) :
    Option String :=
  match languages with
  | [] => none
  | lang :: rest =>
    if lang ∈ completed then pick_next_language rest completed else some lang

/-- Claim C5: if at least one listed language is uncompleted, queue
selection returns a non-empty result containing an uncompleted language,
and the empty candidate list yields an empty result; this holds for both
generate.py's pick_next and generate_chapters.py's pick_next_language. -/
theorem C5_queue_never_skips :
    ∀ (languages completed : List String),
      ((∃ l, l ∈ languages ∧ l ∉ completed) →
        pick_next languages completed ≠ [] ∧
        ∃ l, l ∈ pick_next languages completed ∧ l ∉ completed) ∧
      pick_next [] completed = [] ∧
      ((∃ l, l ∈ languages ∧ l ∉ completed) →
        ∃ l, pick_next_language languages completed = some l ∧ l ∉ completed) ∧
      pick_next_language [] completed = none := by
  intro languages completed
  refine ⟨?_, rfl, ?_, rfl⟩
  · intro h
    induction languages with
    | nil =>
      obtain ⟨l, hl, _⟩ := h
      exact absurd hl (List.not_mem_nil l)
    | cons lang rest ih =>
      by_cases hc : lang ∈ completed
      · have h' : ∃ l, l ∈ rest ∧ l ∉ completed := by
          obtain ⟨l, hl, hnc⟩ := h
          rcases List.mem_cons.mp hl with rfl | hmem
          · exact absurd hc hnc
          · exact ⟨l, hmem, hnc⟩
        have := ih h'
        simpa [pick_next, hc] using this
      · by_cases hs : lang ∈ SMALL_LANGUAGES
        · cases rest with
          | nil =>
            refine ⟨by simp [pick_next, hc, hs, MAX_SMALL_PER_RUN], lang, ?_, hc⟩
            simp [pick_next, hc, hs, MAX_SMALL_PER_RUN]
          | cons next rest' =>
            by_cases hn : next ∈ completed
            · refine ⟨by simp [pick_next, hc, hs, hn, MAX_SMALL_PER_RUN],
                lang, ?_, hc⟩
              simp [pick_next, hc, hs, hn, MAX_SMALL_PER_RUN]
            · refine ⟨by simp [pick_next, hc, hs, hn, MAX_SMALL_PER_RUN],
                lang, ?_, hc⟩
              simp [pick_next, hc, hs, hn, MAX_SMALL_PER_RUN]
        · exact ⟨by simp [pick_next, hc, hs], lang, by simp [pick_next, hc, hs], hc⟩
  · intro h
    induction languages with
    | nil =>
      obtain ⟨l, hl, _⟩ := h
      exact absurd hl (List.not_mem_nil l)
    | cons lang rest ih =>
      by_cases hc : lang ∈ completed
      · have h' : ∃ l, l ∈ rest ∧ l ∉ completed := by
          obtain ⟨l, hl, hnc⟩ := h
          rcases List.mem_cons.mp hl with rfl | hmem
          · exact absurd hc hnc
          · exact ⟨l, hmem, hnc⟩
        simpa [pick_next_language, hc] using ih h'
      · exact ⟨lang, by simp [pick_next_language, hc], hc⟩

/-- Witness for C5_queue_never_skips: with languages ["Python"] and an
empty completed set, pick_next returns a non-empty list containing an
uncompleted language. -/
theorem C5_queue_never_skips_witness :
    pick_next ["Python"] [] ≠ [] ∧
    ∃ l, l ∈ pick_next ["Python"] [] ∧ l ∉ ([] : List String) :=
  (C5_queue_never_skips ["Python"] []).1 ⟨"Python", by decide, by decide⟩

/-- Claim C6, counterexample: pick_next may return two languages whose
second member is not in the small-language set: with the list
["Lua", "Python"] and nothing completed, it returns ["Lua", "Python"],
and "Python" is not a small language. -/
theorem C6_cex_second_grouped_language_not_small :
    pick_next ["Lua", "Python"] [] = ["Lua", "Python"] ∧
    "Python" ∉ SMALL_LANGUAGES := by
  decide

/-- The behaviour of pick_next at the first eligible (uncompleted) entry
of the list, after any completed prefix: a non-small first eligible
language is returned alone; a small one is returned alone when no entry
follows or the following entry is completed, and is otherwise grouped
with exactly that next list entry. -/
theorem pick_next_first_eligible (completed : List String) :
    ∀ (pre : List String) (lang : String) (rest : List String),
      (∀ l ∈ pre, l ∈ completed) → lang ∉ completed →
      (lang ∉ SMALL_LANGUAGES →
        pick_next (pre ++ lang :: rest) completed = [lang]) ∧
      (lang ∈ SMALL_LANGUAGES →
        (rest = [] → pick_next (pre ++ lang :: rest) completed = [lang]) ∧
        (∀ next rest2, rest = next :: rest2 →
          (next ∈ completed →
            pick_next (pre ++ lang :: rest) completed = [lang]) ∧
          (next ∉ completed →
            pick_next (pre ++ lang :: rest) completed = [lang, next]))) := by
  intro pre
  induction pre with
  | nil =>
    intro lang rest _ hlang
    refine ⟨?_, ?_⟩
    · intro hs
      simp [pick_next, hlang, hs]
    · intro hs
      refine ⟨?_, ?_⟩
      · intro hrest
        subst hrest
        simp [pick_next, hlang, hs, MAX_SMALL_PER_RUN]
      · intro next rest2 hrest
        subst hrest
        refine ⟨?_, ?_⟩
        · intro hn
          simp [pick_next, hlang, hs, hn, MAX_SMALL_PER_RUN]
        · intro hn
          simp [pick_next, hlang, hs, hn, MAX_SMALL_PER_RUN]
  | cons p pre2 ih =>
    intro lang rest hpre hlang
    have hp : p ∈ completed := hpre p (List.mem_cons_self p pre2)
    have hstep : pick_next ((p :: pre2) ++ lang :: rest) completed =
        pick_next (pre2 ++ lang :: rest) completed := by
      simp [pick_next, hp]
    rw [hstep]
    exact ih lang rest (fun l hl => hpre l (List.mem_cons_of_mem p hl)) hlang

/-- Claim C6 (amended): pick_next returns at most two languages; the
result is empty, or a single uncompleted language, or two uncompleted
languages of which the FIRST belongs to the small-language set; and
relative to the first eligible (uncompleted) entry of the list (the
entry after a fully-completed prefix): a non-small first eligible
language is returned alone, a small one is returned alone when the
following entry is absent or completed, and otherwise it is grouped with
exactly that next list entry, which need not be small (see the
counterexample). -/
theorem C6_group_shape :
    ∀ (languages completed : List String),
      (pick_next languages completed).length ≤ 2 ∧
      (pick_next languages completed = [] ∨
       (∃ l, pick_next languages completed = [l] ∧ l ∉ completed) ∨
       (∃ l₁ l₂, pick_next languages completed = [l₁, l₂] ∧
         l₁ ∈ SMALL_LANGUAGES ∧ l₁ ∉ completed ∧ l₂ ∉ completed)) ∧
      (∀ pre lang rest, languages = pre ++ lang :: rest →
        (∀ l ∈ pre, l ∈ completed) → lang ∉ completed →
        (lang ∉ SMALL_LANGUAGES → pick_next languages completed = [lang]) ∧
        (lang ∈ SMALL_LANGUAGES →
          (rest = [] → pick_next languages completed = [lang]) ∧
          (∀ next rest2, rest = next :: rest2 →
            (next ∈ completed → pick_next languages completed = [lang]) ∧
            (next ∉ completed →
              pick_next languages completed = [lang, next])))) := by
  intro languages completed
  have hAB : (pick_next languages completed).length ≤ 2 ∧
      (pick_next languages completed = [] ∨
       (∃ l, pick_next languages completed = [l] ∧ l ∉ completed) ∨
       (∃ l₁ l₂, pick_next languages completed = [l₁, l₂] ∧
         l₁ ∈ SMALL_LANGUAGES ∧ l₁ ∉ completed ∧ l₂ ∉ completed)) := by
    induction languages with
    | nil => exact ⟨by simp [pick_next], Or.inl rfl⟩
    | cons lang rest ih =>
      by_cases hc : lang ∈ completed
      · simpa [pick_next, hc] using ih
      · by_cases hs : lang ∈ SMALL_LANGUAGES
        · cases rest with
          | nil =>
            refine ⟨by simp [pick_next, hc, hs, MAX_SMALL_PER_RUN],
              Or.inr (Or.inl ?_)⟩
            exact ⟨lang, by simp [pick_next, hc, hs, MAX_SMALL_PER_RUN], hc⟩
          | cons next rest' =>
            by_cases hn : next ∈ completed
            · refine ⟨by simp [pick_next, hc, hs, hn, MAX_SMALL_PER_RUN],
                Or.inr (Or.inl ?_)⟩
              exact ⟨lang, by simp [pick_next, hc, hs, hn, MAX_SMALL_PER_RUN], hc⟩
            · refine ⟨by simp [pick_next, hc, hs, hn, MAX_SMALL_PER_RUN],
                Or.inr (Or.inr ?_)⟩
              exact ⟨lang, next,
                by simp [pick_next, hc, hs, hn, MAX_SMALL_PER_RUN], hs, hc, hn⟩
        · refine ⟨by simp [pick_next, hc, hs], Or.inr (Or.inl ?_)⟩
          exact ⟨lang, by simp [pick_next, hc, hs], hc⟩
  refine ⟨hAB.1, hAB.2, ?_⟩
  intro pre lang rest hlangs hpre hlang
  subst hlangs
  exact pick_next_first_eligible completed pre lang rest hpre hlang

/-! ## Completion log handling (generate.py main, generate_chapters.py main,
gemini_polish.py main) -/

/-- One iteration of the per-language loop in generate.py main: generate
content for the language, write the output file, and only then append the
language to the completion log; any exception from generation or the
write leaves the log unchanged (the `except` branch just continues). -/
def processLang {L C E : Type} (gen : L → Except E C) (wr : L → C → Except E Unit)
    (log : List L) (lang : L) : List L :=
  match gen lang with
  | .error _ => log
  | .ok c =>
    match wr lang c with
    | .error _ => log
    | .ok _ => log ++ [lang]

/-- The per-language loop of generate.py main over the whole batch.
Returns the final completion log and the list of languages that were
attempted (the loop body runs for every batch member; `except: continue`
never aborts the loop). -/
def genLoop {C E : Type} (gen : String → Except E C) (wr : String → C → Except E Unit)
    (log : List String) : List String → List String × List String
  | [] => (log, [])
  | lang :: rest =>
    let log' := processLang gen wr log lang
    let r := genLoop gen wr log' rest
    (r.1, lang :: r.2)

/-- generate_chapters.py main: run generation for the picked language;
on exception return exit code 3 with the log unchanged; on success append
the language to completed_languages.txt unless MOCK_MODE is on. -/
def chaptersMain {E : Type} (mock : Bool) (genRes : Except E Unit)
    (log : List String) (lang : String) : Nat × List String :=
  match genRes with
  | .error _ => (3, log)
  | .ok _ => if mock then (0, log) else (0, log ++ [lang])

/-- Claim C2: a language is appended to the completion log only when
generation and the output write succeeded; on any exception the log is
unchanged.  Stated for generate.py's per-language step (processLang) and
generate_chapters.py's main (chaptersMain). -/
theorem C2_completion_only_on_success :
    ∀ (L C E : Type) (gen : L → Except E C) (wr : L → C → Except E Unit)
      (log : List L) (lang : L),
      (∀ e, gen lang = .error e → processLang gen wr log lang = log) ∧
      (∀ c e, gen lang = .ok c → wr lang c = .error e →
        processLang gen wr log lang = log) ∧
      (processLang gen wr log lang ≠ log →
        ∃ c, gen lang = .ok c ∧ wr lang c = .ok () ∧
          processLang gen wr log lang = log ++ [lang]) ∧
      (∀ (E' : Type) (mock : Bool) (e : E') (log' : List String) (l : String),
        (chaptersMain mock (.error e) log' l).2 = log') ∧
      (∀ (E' : Type) (mock : Bool) (r : Except E' Unit) (log' : List String)
        (l : String), (chaptersMain mock r log' l).2 ≠ log' →
        r = .ok () ∧ mock = false ∧
          (chaptersMain mock r log' l).2 = log' ++ [l]) := by
  intro L C E gen wr log lang
  refine ⟨?_, ?_, ?_, ?_, ?_⟩
  · intro e he
    simp [processLang, he]
  · intro c e hc hw
    simp [processLang, hc, hw]
  · intro hne
    rcases hg : gen lang with e | c
    · exact absurd (by simp [processLang, hg]) hne
    · rcases hw : wr lang c with e | u
      · exact absurd (by simp [processLang, hg, hw]) hne
      · cases u
        refine ⟨c, ?_, ?_, ?_⟩
        · simp [hg]
        · simp [hw]
        · simp [processLang, hg, hw]
  · intro E' mock e log' l
    simp [chaptersMain]
  · intro E' mock r log' l hne
    rcases r with e | u
    · exact absurd (by simp [chaptersMain]) hne
    · cases u
      cases mock
      · exact ⟨rfl, rfl, by simp [chaptersMain]⟩
      · exact absurd (by simp [chaptersMain]) hne

/-- Witness for C2_completion_only_on_success: with a generator that
fails for "Rust", the completion log is unchanged. -/
theorem C2_completion_only_on_success_witness :
    processLang (fun _ : String => (Except.error "boom" : Except String String))
      (fun _ _ => Except.ok ()) ["Python"] "Rust" = ["Python"] :=
  (C2_completion_only_on_success String String String
    (fun _ => Except.error "boom") (fun _ _ => Except.ok ())
    ["Python"] "Rust").1 "boom" rfl

/-! ## String helpers shared by the exception-message classifiers and
slugify (ASCII model of Python str.lower and the `in` substring test) -/

/-- Python str.lower() on an ASCII character: map A-Z (codes 65-90) to
a-z (codes 97-122), leave everything else unchanged. -/
def pyLower (c : Char) : Char :=
  if h : 65 ≤ c.toNat ∧ c.toNat ≤ 90 then
    Char.ofNatAux (c.toNat + 32) (Or.inl (by omega))
  else c

/-- Python str.lower() applied to each character of a string. -/
def pyLowerStr (s : String) : String := (s.toList.map pyLower).asString

/-- Whether the first list is an initial segment of the second. -/
def startsWithSeq : List Char → List Char → Bool
  | [], _ => true
  | _ :: _, [] => false
  | a :: as, b :: bs => a == b && startsWithSeq as bs

/-- Whether `needle` occurs contiguously inside `hay`
(the Python `needle in hay` substring test). -/
def containsSeq (needle : List Char) : List Char → Bool
  | [] => needle.isEmpty
  | c :: rest => startsWithSeq needle (c :: rest) || containsSeq needle rest

/-- Python `pat in hay` on strings. -/
def strContains (hay pat : String) : Bool := containsSeq pat.toList hay.toList

/-! ## Failure isolation in the batch loops (generate.py main,
gemini_polish.py main) -/

/-- gemini_polish.py main, exception branch: stop the whole run when the
error looks quota-like, i.e. `"429" in str(e) or "quota" in str(e).lower()`. -/
def quotaLikeErr (m : String) : Bool :=
  strContains m "429" || strContains (pyLowerStr m) "quota"

/-- The batch loop of gemini_polish.py main, reduced to which batches the
loop body is attempted for.  `outcome b` is the combined result of the
provider call and the writes for batch `b`; `sent` counts successful
requests; the loop breaks when `sent >= requests_allowed`, and on an
exception it logs and continues - unless the message is quota-like, in
which case it breaks.  Returns the list of attempted batches. -/
def polishLoop {α : Type} (outcome : α → Except String Unit) (allowed : Nat) :
    List α → Nat → List α
  | [], _ => []
  | b :: rest, sent =>
    if allowed ≤ sent then []
    else
      match outcome b with
      | .ok _ => b :: polishLoop outcome allowed rest (sent + 1)
      | .error m =>
        if quotaLikeErr m then [b] else b :: polishLoop outcome allowed rest sent

/-- Claim C7, counterexample: in gemini_polish.py a failure for one batch
CAN abort the run for the remaining batches: if the first batch fails
with a message containing "429", the loop breaks and the second queued
batch is never attempted (only batch 0 is attempted out of [0, 1]). -/
theorem C7_cex_quota_error_aborts_run :
    polishLoop
      (fun b : Nat =>
        if b == 0 then Except.error "Gemini API error 429: RESOURCE_EXHAUSTED"
        else Except.ok ()) 5 [0, 1] 0 = [0] ∧
    (1 : Nat) ∉ [0] := by
  constructor
  · decide
  · decide

/-- Claim C7 (amended): a failure for one item never aborts the run for
the remaining queued items in generate.py's loop (every batch member is
attempted unconditionally), and in gemini_polish.py's loop provided no
failure message is quota-like ("429"/"quota") and the request budget
covers the queue; a quota-like failure message, however, stops the
remaining batches. -/
theorem C7_failure_isolation :
    (∀ (C E : Type) (gen : String → Except E C) (wr : String → C → Except E Unit)
      (log batch : List String), (genLoop gen wr log batch).2 = batch) ∧
    (∀ (α : Type) (outcome : α → Except String Unit) (allowed : Nat)
      (batch : List α) (sent : Nat),
      (∀ b m, outcome b = .error m → quotaLikeErr m = false) →
      sent + batch.length ≤ allowed →
      polishLoop outcome allowed batch sent = batch) := by
  constructor
  · intro C E gen wr log batch
    induction batch generalizing log with
    | nil => rfl
    | cons lang rest ih => simp [genLoop, ih]
  · intro α outcome allowed batch sent hq hlen
    induction batch generalizing sent with
    | nil => rfl
    | cons b rest ih =>
      have hlt : ¬ allowed ≤ sent := by
        simp only [List.length_cons] at hlen
        omega
      rcases ho : outcome b with m | u
      · have hqm : quotaLikeErr m = false := hq b m ho
        have hrec := ih sent (by simp only [List.length_cons] at hlen; omega)
        simp [polishLoop, if_neg hlt, ho, hqm, hrec]
      · have hrec := ih (sent + 1) (by simp only [List.length_cons] at hlen; omega)
        simp [polishLoop, if_neg hlt, ho, hrec]

/-- Witness for C7_failure_isolation: a non-quota failure on the first
item leaves the second item attempted. -/
theorem C7_failure_isolation_witness :
    polishLoop
      (fun b : Nat =>
        if b == 0 then Except.error "boom" else Except.ok ()) 5 [0, 1] 0 =
      [0, 1] :=
  C7_failure_isolation.2 Nat
    (fun b => if b == 0 then Except.error "boom" else Except.ok ()) 5 [0, 1] 0
    (by
      intro b m h
      by_cases hb : b == 0
      · simp [hb] at h
        subst h
        decide
      · simp [hb] at h)
    (by decide)

/-! ## Retry wrappers (generator/groq_generate.py post_with_retries,
generator/utils/rate_limit.py safe_call,
generator/generate_chapters.py call_model) -/

/-- Outcome of one requests.post attempt in groq_generate.py: either a
response with an HTTP status code (raise_for_status then raises HTTPError
for a 4xx/5xx status), or one of the exception classes the except-chain
distinguishes, in the order the handlers are written. -/
inductive HttpAttempt where
  | response (status : Nat)
  | sslErr
  | connErr
  | timeoutErr
  | reqErr
deriving DecidableEq

/-- Result of post_with_retries, together with the number of attempts
actually made: `ok` is a returned response, `failed` is the final
`return None` path. -/
inductive RetryResult where
  | ok (status : Nat) (attempts : Nat)
  | failed (attempts : Nat)
deriving DecidableEq

/-- groq_generate.py post_with_retries loop body, with `attempt` the
number of attempts already made and `fuel` the remaining iterations of
`while attempt < max_retries`.  A response with status < 400 is returned;
raise_for_status turns 4xx/5xx into HTTPError, which is retried only for
5xx (comment in the code: Retry server errors 5xx, but stop on 4xx);
SSLError breaks immediately; ConnectionError/Timeout and other
RequestExceptions are retried.  Breaking or exhausting the loop reaches
`return None`. -/
def postAux (outcomes : Nat → HttpAttempt) : Nat → Nat → RetryResult
  | attempt, 0 => .failed attempt
  | attempt, fuel + 1 =>
    match outcomes (attempt + 1) with
    | .response s =>
      if s < 400 then .ok s (attempt + 1)
      else if 500 ≤ s ∧ s < 600 then postAux outcomes (attempt + 1) fuel
      else .failed (attempt + 1)
    | .sslErr => .failed (attempt + 1)
    | .connErr => postAux outcomes (attempt + 1) fuel
    | .timeoutErr => postAux outcomes (attempt + 1) fuel
    | .reqErr => postAux outcomes (attempt + 1) fuel

/-- groq_generate.py post_with_retries: run the retry loop from attempt 0
with fuel max_retries. -/
def post_with_retries (outcomes : Nat → HttpAttempt) (max_retries : Nat) :
    RetryResult :=
  postAux outcomes 0 max_retries

/-- groq_generate.py backoff before each retry:
backoff = BASE_BACKOFF * (2 ** (attempt - 1)). -/
def groq_backoff (base : ℚ) (attempt : Nat) : ℚ := base * 2 ^ (attempt - 1)

/-- groq_generate.py sleep before each retry:
jitter = min(5, backoff * 0.1);
sleep_time = backoff + jitter * (0.5 - time.time() % 1).
`frac attempt` models the wall-clock fraction time.time() % 1 in [0, 1).
Floats are modelled as rationals. -/
def groq_sleep (base : ℚ) (frac : Nat → ℚ) (attempt : Nat) : ℚ :=
  groq_backoff base attempt +
    min 5 (groq_backoff base attempt * (1 / 10)) * (1 / 2 - frac attempt)

/-- rate_limit.py safe_call: call fn up to `attempts` times, retrying on
EVERY exception, and raise RateLimitError after exhausting the attempts.
`results i` is the outcome of the i-th call; the function returns the
final outcome together with the number of calls actually made.  The
first state component is the remembered last error. -/
def safe_call_aux {A : Type} (results : Nat → Except String A) :
    Option String → Nat → Nat → Except String A × Nat
  | last, calls, 0 =>
    (.error ("RateLimitError: Failed after attempts. Last error: " ++
      last.getD "None"), calls)
  | _, calls, fuel + 1 =>
    match results (calls + 1) with
    | .ok a => (.ok a, calls + 1)
    | .error e => safe_call_aux results (some e) (calls + 1) fuel

/-- rate_limit.py safe_call with its attempt budget. -/
def safe_call {A : Type} (results : Nat → Except String A) (attempts : Nat) :
    Except String A × Nat :=
  safe_call_aux results none 0 attempts

/-- generate_chapters.py call_model: fatal tokens checked first against
the lowercased exception text - these are re-raised with no retry. -/
def hfFatal (m : String) : Bool :=
  ["401", "repository not found", "invalid username", "permission",
    "forbidden"].any (fun t => strContains (pyLowerStr m) t)

/-- generate_chapters.py call_model: rate-limit-ish tokens that trigger a
backoff and retry. -/
def hfRate (m : String) : Bool :=
  ["rate", "limit", "429", "throttle", "retry", "quota"].any
    (fun t => strContains (pyLowerStr m) t)

/-- generate_chapters.py call_model: transient-error tokens that trigger a
backoff and retry. -/
def hfTransient (m : String) : Bool :=
  ["timeout", "connection", "temporarily unavailable", "503",
    "service unavailable"].any (fun t => strContains (pyLowerStr m) t)

/-- Result of call_model: a returned text or a raised exception, with the
number of attempts made. -/
inductive CallResult where
  | ok (text : String) (attempts : Nat)
  | raised (msg : String) (attempts : Nat)
deriving DecidableEq

/-- generate_chapters.py call_model retry loop: for attempt in
1..MAX_RETRIES, run the provider call; on an exception, re-raise fatal
errors, sleep-and-retry on rate or transient tokens, re-raise anything
else; after the loop raise "Max retries reached while calling model". -/
def call_model_aux (outcomes : Nat → Except String String) : Nat → Nat → CallResult
  | attempt, 0 => .raised "Max retries reached while calling model" attempt
  | attempt, fuel + 1 =>
    match outcomes (attempt + 1) with
    | .ok t => .ok t (attempt + 1)
    | .error e =>
      if hfFatal e then .raised e (attempt + 1)
      else if hfRate e then call_model_aux outcomes (attempt + 1) fuel
      else if hfTransient e then call_model_aux outcomes (attempt + 1) fuel
      else .raised e (attempt + 1)

/-- generate_chapters.py call_model from attempt 0 with MAX_RETRIES fuel. -/
def call_model (outcomes : Nat → Except String String) (max_retries : Nat) :
    CallResult :=
  call_model_aux outcomes 0 max_retries

/-- generate_chapters.py sleep before retry i:
sleep_time = backoff + random.random(), where backoff starts at
INITIAL_BACKOFF and doubles after each retry, so before the i-th retry
backoff = base * 2^(i-1).  `rand i` models random.random() in [0, 1). -/
def hf_sleep (base : ℚ) (rand : Nat → ℚ) (i : Nat) : ℚ :=
  base * 2 ^ (i - 1) + rand i

/-- Claim C3, counterexample: the safe_call retry wrapper in
utils/rate_limit.py does NOT fail fast on a 404 error: with every call
raising a 404 error and attempts=3 it makes 3 calls (two retries), not
one. -/
theorem C3_cex_safe_call_retries_not_found :
    (safe_call (fun _ =>
      (Except.error "404 Client Error: Not Found" : Except String Unit)) 3).2 = 3 ∧
    (3 : Nat) ≠ 1 := by
  constructor
  · rfl
  · decide

/-- Helper: safe_call makes exactly `calls + fuel` calls when every call
fails. -/
theorem safe_call_aux_all_fail {A : Type} (results : Nat → Except String A) :
    ∀ (fuel calls : Nat) (last : Option String),
      (∀ i, calls < i → i ≤ calls + fuel → ∃ e, results i = .error e) →
      (safe_call_aux results last calls fuel).2 = calls + fuel := by
  intro fuel
  induction fuel with
  | zero => intro calls last _; rfl
  | succ fuel ih =>
    intro calls last h
    obtain ⟨e, he⟩ := h (calls + 1) (by omega) (by omega)
    have := ih (calls + 1) (some e) (fun i h1 h2 => h i (by omega) (by omega))
    simp only [safe_call_aux, he, this]
    omega

/-- Claim C3 (amended): groq_generate.py's post_with_retries fails
immediately after the first attempt - zero retries - when the first
response is an HTTP 401/403/404 or a TLS (SSL) error; the safe_call
helper in utils/rate_limit.py (not imported by the generators), by
contrast, retries every exception uniformly and only gives up after its
full attempt budget. -/
theorem C3_fail_fast :
    (∀ (outcomes : Nat → HttpAttempt) (max_retries : Nat),
      1 ≤ max_retries →
      (outcomes 1 = .response 401 ∨ outcomes 1 = .response 403 ∨
       outcomes 1 = .response 404 ∨ outcomes 1 = .sslErr) →
      post_with_retries outcomes max_retries = .failed 1) ∧
    (∀ (A : Type) (results : Nat → Except String A) (attempts : Nat),
      (∀ i, 1 ≤ i → i ≤ attempts → ∃ e, results i = .error e) →
      (safe_call results attempts).2 = attempts) := by
  constructor
  · intro outcomes max_retries hmax h1
    obtain ⟨k, rfl⟩ : ∃ k, max_retries = k + 1 :=
      ⟨max_retries - 1, by omega⟩
    rcases h1 with h | h | h | h <;>
      simp [post_with_retries, postAux, h]
  · intro A results attempts h
    have := safe_call_aux_all_fail results attempts 0 none
      (fun i h1 h2 => h i (by omega) (by omega))
    simpa [safe_call] using this

/-- Witness for C3_fail_fast: a first-response 404 makes post_with_retries
fail after exactly one attempt even with max_retries = 5, and an
always-failing function makes safe_call use its whole budget of 3. -/
theorem C3_fail_fast_witness :
    post_with_retries (fun _ => .response 404) 5 = .failed 1 ∧
    (safe_call (fun _ => (Except.error "boom" : Except String Unit)) 3).2 = 3 :=
  ⟨C3_fail_fast.1 (fun _ => .response 404) 5 (by omega)
      (Or.inr (Or.inr (Or.inl rfl))),
    C3_fail_fast.2 Unit (fun _ => Except.error "boom") 3
      (fun i _ _ => ⟨"boom", rfl⟩)⟩

/-- Claim C4, counterexample: post_with_retries does NOT retry HTTP 429
(a transient class per the claim): with every response 429 and
max_retries = 5 it fails after a single attempt rather than after 5. -/
theorem C4_cex_429_not_retried :
    post_with_retries (fun _ => .response 429) 5 = .failed 1 ∧
    RetryResult.failed 1 ≠ RetryResult.failed 5 := by
  constructor
  · rfl
  · decide

/-- The outcomes post_with_retries actually retries: HTTP 5xx responses,
connection errors, timeouts, and other RequestExceptions - but not SSL
errors and not 4xx responses (including 429). -/
def transientOutcome : HttpAttempt → Prop
  | .response s => 500 ≤ s ∧ s < 600
  | .sslErr => False
  | .connErr => True
  | .timeoutErr => True
  | .reqErr => True

/-- Helper: postAux exhausts its fuel and fails when every attempt hits a
retried (transient) outcome. -/
theorem postAux_transient (outcomes : Nat → HttpAttempt) :
    ∀ (fuel attempt : Nat),
      (∀ i, attempt < i → i ≤ attempt + fuel → transientOutcome (outcomes i)) →
      postAux outcomes attempt fuel = .failed (attempt + fuel) := by
  intro fuel
  induction fuel with
  | zero => intro attempt _; rfl
  | succ fuel ih =>
    intro attempt h
    have hcur := h (attempt + 1) (by omega) (by omega)
    have hrec := ih (attempt + 1) (fun i h1 h2 => h i (by omega) (by omega))
    rw [show attempt + 1 + fuel = attempt + (fuel + 1) from by omega] at hrec
    rcases ho : outcomes (attempt + 1) with s | _ | _ | _ | _ <;>
      rw [ho] at hcur <;>
      simp only [transientOutcome] at hcur
    · have h400 : ¬ s < 400 := by omega
      simp only [postAux, ho, if_neg h400, if_pos hcur, hrec]
    all_goals
      simp only [postAux, ho, hrec]

/-- Helper: call_model_aux exhausts its fuel when every attempt raises a
non-fatal rate/transient error, and then raises the max-retries error. -/
theorem call_model_aux_retriable (outcomes : Nat → Except String String) :
    ∀ (fuel attempt : Nat),
      (∀ i, attempt < i → i ≤ attempt + fuel →
        ∃ e, outcomes i = .error e ∧ hfFatal e = false ∧
          (hfRate e = true ∨ hfTransient e = true)) →
      call_model_aux outcomes attempt fuel =
        .raised "Max retries reached while calling model" (attempt + fuel) := by
  intro fuel
  induction fuel with
  | zero => intro attempt _; rfl
  | succ fuel ih =>
    intro attempt h
    obtain ⟨e, he, hfat, hretr⟩ := h (attempt + 1) (by omega) (by omega)
    have hrec := ih (attempt + 1) (fun i h1 h2 => h i (by omega) (by omega))
    rw [show attempt + 1 + fuel = attempt + (fuel + 1) from by omega] at hrec
    rcases hretr with hr | ht
    · simp only [call_model_aux, he, hfat, Bool.false_eq_true, if_false, hr,
        if_true, hrec]
    · simp only [call_model_aux, he, hfat, Bool.false_eq_true, if_false, ht]
      by_cases hr : hfRate e = true
      · simp only [hr, if_true, hrec]
      · simp only [hr, if_false, if_true, hrec]
        split <;> rfl

/-- Claim C4 (amended): (i) post_with_retries retries HTTP 5xx responses,
timeouts, connection errors and other request exceptions up to
max_retries attempts and then surfaces failure (HTTP 429, being a 4xx,
is NOT retried there - see the counterexample); (ii) its sleep before
successive retries is strictly increasing (exponential backoff dominates
the bounded jitter); (iii) generate_chapters.py's call_model retries
rate-limit (including 429) and transient errors up to MAX_RETRIES and
then raises; (iv) its backoff-plus-jitter sleep is strictly increasing
whenever the initial backoff is at least 1 (the default is 2.0). -/
theorem C4_transient_retries :
    (∀ (outcomes : Nat → HttpAttempt) (max_retries : Nat),
      (∀ i, 1 ≤ i → i ≤ max_retries → transientOutcome (outcomes i)) →
      post_with_retries outcomes max_retries = .failed max_retries) ∧
    (∀ (base : ℚ) (frac : Nat → ℚ),
      0 < base → (∀ i, 0 ≤ frac i ∧ frac i < 1) →
      ∀ a, 1 ≤ a → groq_sleep base frac a < groq_sleep base frac (a + 1)) ∧
    (∀ (outcomes : Nat → Except String String) (max_retries : Nat),
      (∀ i, 1 ≤ i → i ≤ max_retries →
        ∃ e, outcomes i = .error e ∧ hfFatal e = false ∧
          (hfRate e = true ∨ hfTransient e = true)) →
      call_model outcomes max_retries =
        .raised "Max retries reached while calling model" max_retries) ∧
    (∀ (base : ℚ) (rand : Nat → ℚ),
      1 ≤ base → (∀ i, 0 ≤ rand i ∧ rand i < 1) →
      ∀ a, 1 ≤ a → hf_sleep base rand a < hf_sleep base rand (a + 1)) := by
  refine ⟨?_, ?_, ?_, ?_⟩
  · intro outcomes max_retries h
    have := postAux_transient outcomes max_retries 0
      (fun i h1 h2 => h i (by omega) (by omega))
    simpa [post_with_retries] using this
  · intro base frac hbase hfrac a ha
    have hb : 0 < base * 2 ^ (a - 1) := by positivity
    set b : ℚ := base * 2 ^ (a - 1) with hbdef
    have hsucc : groq_backoff base (a + 1) = 2 * b := by
      simp only [groq_backoff, hbdef]
      rw [show a + 1 - 1 = (a - 1) + 1 from by omega, pow_succ]
      ring
    have hcur : groq_backoff base a = b := rfl
    obtain ⟨hf0, hf1⟩ := hfrac a
    obtain ⟨hg0, hg1⟩ := hfrac (a + 1)
    have hj0 : (0 : ℚ) ≤ min 5 (b * (1 / 10)) :=
      le_min (by norm_num) (by positivity)
    have hj1 : min 5 (b * (1 / 10)) ≤ b * (1 / 10) := min_le_right _ _
    have hk0 : (0 : ℚ) ≤ min 5 (2 * b * (1 / 10)) :=
      le_min (by norm_num) (by positivity)
    have hk1 : min 5 (2 * b * (1 / 10)) ≤ 2 * b * (1 / 10) := min_le_right _ _
    have hup : min 5 (b * (1 / 10)) * (1 / 2 - frac a) ≤ b * (1 / 10) * (1 / 2) := by
      calc min 5 (b * (1 / 10)) * (1 / 2 - frac a)
          ≤ min 5 (b * (1 / 10)) * (1 / 2) := by
            apply mul_le_mul_of_nonneg_left _ hj0
            linarith
        _ ≤ b * (1 / 10) * (1 / 2) := by
            apply mul_le_mul_of_nonneg_right hj1
            norm_num
    have hlo : -(2 * b * (1 / 10)) * (1 / 2) ≤
        min 5 (2 * b * (1 / 10)) * (1 / 2 - frac (a + 1)) := by
      calc -(2 * b * (1 / 10)) * (1 / 2)
          ≤ -(min 5 (2 * b * (1 / 10))) * (1 / 2) := by
            apply mul_le_mul_of_nonneg_right _ (by norm_num)
            linarith
        _ = min 5 (2 * b * (1 / 10)) * (-(1 / 2)) := by ring
        _ ≤ min 5 (2 * b * (1 / 10)) * (1 / 2 - frac (a + 1)) := by
            apply mul_le_mul_of_nonneg_left _ hk0
            linarith
    simp only [groq_sleep, hsucc, hcur]
    linarith
  · intro outcomes max_retries h
    have := call_model_aux_retriable outcomes max_retries 0
      (fun i h1 h2 => h i (by omega) (by omega))
    simpa [call_model] using this
  · intro base rand hbase hrand a ha
    have hpow : (1 : ℚ) ≤ 2 ^ (a - 1) := one_le_pow₀ (by norm_num)
    have hb : 1 ≤ base * 2 ^ (a - 1) := by nlinarith
    have hsucc : base * 2 ^ (a + 1 - 1) = 2 * (base * 2 ^ (a - 1)) := by
      rw [show a + 1 - 1 = (a - 1) + 1 from by omega, pow_succ]
      ring
    obtain ⟨hr0, hr1⟩ := hrand a
    obtain ⟨hs0, hs1⟩ := hrand (a + 1)
    simp only [hf_sleep, hsucc]
    linarith

/-- Witness for C4_transient_retries: all-503 responses exhaust all 3
attempts of post_with_retries; the groq sleep strictly increases from
attempt 1 to 2; an all-429 error exhausts both attempts of call_model;
and the call_model sleep strictly increases from attempt 1 to 2. -/
theorem C4_transient_retries_witness :
    post_with_retries (fun _ => .response 503) 3 = .failed 3 ∧
    groq_sleep 2 (fun _ => 0) 1 < groq_sleep 2 (fun _ => 0) 2 ∧
    call_model (fun _ => Except.error "HTTP 429 Too Many Requests") 2 =
      .raised "Max retries reached while calling model" 2 ∧
    hf_sleep 2 (fun _ => 0) 1 < hf_sleep 2 (fun _ => 0) 2 :=
  ⟨C4_transient_retries.1 (fun _ => .response 503) 3
      (fun i _ _ => ⟨by norm_num, by norm_num⟩),
    C4_transient_retries.2.1 2 (fun _ => 0) (by norm_num)
      (fun i => ⟨le_refl 0, by norm_num⟩) 1 (le_refl 1),
    C4_transient_retries.2.2.1 (fun _ => Except.error "HTTP 429 Too Many Requests") 2
      (fun i _ _ => ⟨"HTTP 429 Too Many Requests", rfl, by decide, Or.inl (by decide)⟩),
    C4_transient_retries.2.2.2 2 (fun _ => 0) (by norm_num)
      (fun i => ⟨le_refl 0, by norm_num⟩) 1 (le_refl 1)⟩

/-! ## Slugification (gemini_polish.py slugify, generate_one_chapter.py
slugify).  Python strings are modelled as `List Char` at the ASCII level:
`.lower()` is `pyLower` per character, the regex substitutions
`re.sub(r"[^a-z0-9]+", "-", s)` and `re.sub(r"-+", "-", s)` replace each
maximal run of matching characters by a single hyphen (`subRuns`), and
`.strip()` / `.strip("-")` drop the matching characters from both ends. -/

/-- A character matched by `[a-z0-9]`, i.e. a lowercase ASCII letter
(codes 97-122) or digit (codes 48-57). -/
def isLowerAlnum (c : Char) : Bool :=
  (decide (97 ≤ c.toNat) && decide (c.toNat ≤ 122)) ||
  (decide (48 ≤ c.toNat) && decide (c.toNat ≤ 57))

/-- ASCII whitespace stripped by Python str.strip():
space, tab, newline, carriage return, vertical tab, form feed. -/
def pySpace (c : Char) : Bool :=
  c.toNat == 32 || c.toNat == 9 || c.toNat == 10 || c.toNat == 13 ||
  c.toNat == 11 || c.toNat == 12

/-- Replace every maximal run of characters satisfying `p` by the single
character `r` (the effect of `re.sub(class+, r, s)`); `inRun` records
whether the previous character was part of such a run. -/
def subRuns (p : Char → Bool) (r : Char) : List Char → Bool → List Char
  | [], _ => []
  | c :: cs, inRun =>
    if p c then
      if inRun then subRuns p r cs true else r :: subRuns p r cs true
    else c :: subRuns p r cs false

/-- gemini_polish.py slugify line: re.sub(r"[^a-z0-9]+", "-", s). -/
def subNonAlnum (l : List Char) : List Char :=
  subRuns (fun c => ! isLowerAlnum c) '-' l false

/-- gemini_polish.py slugify line: re.sub(r"-+", "-", s). -/
def subHyphens (l : List Char) : List Char :=
  subRuns (fun c => c == '-') '-' l false

/-- Python strip with a character class: drop matching characters from
both ends. -/
def stripEnds (p : Char → Bool) (l : List Char) : List Char :=
  List.rdropWhile p (List.dropWhile p l)

/-- Python s.strip() (whitespace). -/
def pyStripWs (l : List Char) : List Char := stripEnds pySpace l

/-- The shared body of both slugify functions:
s.strip().lower(), then the two substitutions, then .strip("-"). -/
def slugify_core (s : List Char) : List Char :=
  stripEnds (fun c => c == '-')
    (subHyphens (subNonAlnum ((pyStripWs s).map pyLower)))

/-- gemini_polish.py slugify: `return s or "chap"`. -/
def slugify_polish (s : List Char) : List Char :=
  if (slugify_core s).isEmpty then "chap".toList else slugify_core s

/-- generate_one_chapter.py slugify: `return s or "chapter"`. -/
def slugify_chapter (s : List Char) : List Char :=
  if (slugify_core s).isEmpty then "chapter".toList else slugify_core s

/-- Specification-side point map: keep an alphanumeric character, turn
anything else into a hyphen. -/
def hyphenate (c : Char) : Char := if isLowerAlnum c then c else '-'

/-- Specification-side slug, written from the spec's words: the string
lowercased, with every maximal run of non-alphanumeric characters
collapsed to a single hyphen (map each such character to a hyphen, then
collapse adjacent hyphens), and leading/trailing hyphens stripped. -/
def slug_spec (s : List Char) : List Char :=
  stripEnds (fun c => c == '-')
    (subRuns (fun c => c == '-') '-' ((s.map pyLower).map hyphenate) false)

/-- The run-state seen by subRuns after processing a list: `p` of the
last element, or the initial state for the empty list. -/
def endSt (p : Char → Bool) : List Char → Bool → Bool
  | [], b => b
  | c :: cs, _ => endSt p cs (p c)

/-- pyLower at the code-point level. -/
theorem pyLower_toNat (c : Char) :
    (pyLower c).toNat =
      if 65 ≤ c.toNat ∧ c.toNat ≤ 90 then c.toNat + 32 else c.toNat := by
  unfold pyLower
  split <;> rfl

/-- Lowercasing preserves whitespace-ness. -/
theorem pyLower_pySpace (c : Char) : pySpace (pyLower c) = pySpace c := by
  by_cases h : 65 ≤ c.toNat ∧ c.toNat ≤ 90
  · have h1 : (pyLower c).toNat = c.toNat + 32 := by rw [pyLower_toNat, if_pos h]
    have hl : pySpace (pyLower c) = false := by
      simp only [pySpace, h1, Bool.or_eq_false_iff, beq_eq_false_iff_ne, ne_eq]
      omega
    have hr : pySpace c = false := by
      simp only [pySpace, Bool.or_eq_false_iff, beq_eq_false_iff_ne, ne_eq]
      omega
    rw [hl, hr]
  · have : pyLower c = c := by rw [pyLower, dif_neg h]
    rw [this]

/-- Whitespace is not alphanumeric. -/
theorem pySpace_imp_not_alnum (c : Char) (h : pySpace c = true) :
    (fun c => ! isLowerAlnum c) c = true := by
  simp only [pySpace, Bool.or_eq_true, beq_iff_eq] at h
  simp only [Bool.not_eq_true', isLowerAlnum, Bool.or_eq_false_iff,
    Bool.and_eq_false_iff, decide_eq_false_iff_not]
  omega

/-- An alphanumeric character is not a hyphen. -/
theorem alnum_ne_hyphen (c : Char) (h : isLowerAlnum c = true) :
    (c == '-') = false := by
  rw [beq_eq_false_iff_ne]
  intro hc
  subst hc
  exact absurd h (by decide)

/-- subRuns distributes over append, threading the run state. -/
theorem subRuns_append (p : Char → Bool) (r : Char) :
    ∀ (xs ys : List Char) (b : Bool),
      subRuns p r (xs ++ ys) b =
        subRuns p r xs b ++ subRuns p r ys (endSt p xs b) := by
  intro xs
  induction xs with
  | nil => intro ys b; rfl
  | cons c cs ih =>
    intro ys b
    by_cases hc : p c = true
    · cases b <;> simp [subRuns, hc, endSt, ih]
    · simp [subRuns, hc, endSt, ih]

/-- The run state after a list ending in x is p x. -/
theorem endSt_concat (p : Char → Bool) :
    ∀ (xs : List Char) (x : Char) (b : Bool), endSt p (xs ++ [x]) b = p x := by
  intro xs
  induction xs with
  | nil => intro x b; rfl
  | cons c cs ih => intro x b; simp [endSt, ih]

/-- Collapsing runs commutes with list reversal. -/
theorem subRuns_reverse (p : Char → Bool) (r : Char) :
    ∀ l : List Char, subRuns p r l.reverse false = (subRuns p r l false).reverse := by
  intro l
  induction l with
  | nil => rfl
  | cons c cs ih =>
    rw [List.reverse_cons, subRuns_append, ih]
    by_cases hc : p c = true
    · cases cs with
      | nil => simp [subRuns, hc, endSt]
      | cons d ds =>
        have hst : endSt p (d :: ds).reverse false = p d := by
          rw [List.reverse_cons, endSt_concat]
        rw [hst]
        by_cases hd : p d = true
        · simp [subRuns, hc, hd]
        · simp [subRuns, hc, hd]
    · simp [subRuns, hc, endSt]

/-- After stripping leading copies of r, the initial run state of subRuns
is irrelevant. -/
theorem dropWhile_subRuns_state (p : Char → Bool) (r : Char) (_hpr : p r = true) :
    ∀ l : List Char,
      (subRuns p r l true).dropWhile (fun c => c == r) =
      (subRuns p r l false).dropWhile (fun c => c == r) := by
  intro l
  cases l with
  | nil => rfl
  | cons c cs =>
    by_cases hc : p c = true
    · simp [subRuns, hc]
    · simp [subRuns, hc]

/-- Stripping a leading q-run before collapsing runs does not change the
collapsed list once leading copies of r are stripped, provided q-characters
are also p-characters. -/
theorem dropWhile_subRuns_dropWhile (p q : Char → Bool) (r : Char)
    (hpr : p r = true) (himp : ∀ c, q c = true → p c = true) :
    ∀ l : List Char,
      (subRuns p r (l.dropWhile q) false).dropWhile (fun c => c == r) =
      (subRuns p r l false).dropWhile (fun c => c == r) := by
  intro l
  induction l with
  | nil => rfl
  | cons c cs ih =>
    by_cases hq : q c = true
    · have hp : p c = true := himp c hq
      have hstate := dropWhile_subRuns_state p r hpr cs
      rw [List.dropWhile_cons_of_pos hq, ih,
        show subRuns p r (c :: cs) false = r :: subRuns p r cs true from by
          simp [subRuns, hp]]
      simp [List.dropWhile_cons, hstate]
    · rw [List.dropWhile_cons_of_neg hq]

/-- Mapping each non-alphanumeric character to a hyphen and then
collapsing hyphen runs is collapsing non-alphanumeric runs. -/
theorem subRuns_map_hyphenate :
    ∀ (l : List Char) (b : Bool),
      subRuns (fun c => c == '-') '-' (l.map hyphenate) b =
        subRuns (fun c => ! isLowerAlnum c) '-' l b := by
  intro l
  induction l with
  | nil => intro b; rfl
  | cons c cs ih =>
    intro b
    by_cases hP : isLowerAlnum c = true
    · have hcr : (c == '-') = false := alnum_ne_hyphen c hP
      simp [subRuns, hyphenate, hP, hcr, ih]
    · have hfalse : isLowerAlnum c = false := by
        simpa using hP
      simp [subRuns, hyphenate, hfalse, ih]

/-- Collapsing r-runs is idempotent on the output of any run collapse
with the same replacement character. -/
theorem subRuns_idem (p : Char → Bool) (r : Char) (hpr : p r = true) :
    ∀ (l : List Char) (b : Bool),
      subRuns (fun c => c == r) r (subRuns p r l b) b = subRuns p r l b := by
  intro l
  induction l with
  | nil => intro b; rfl
  | cons c cs ih =>
    intro b
    by_cases hc : p c = true
    · cases b <;> simp [subRuns, hc, ih]
    · have hcr : (c == r) = false := by
        rw [beq_eq_false_iff_ne]
        intro h
        subst h
        simp [hpr] at hc
      simp [subRuns, hc, hcr, ih]

/-- rdropWhile keeps a head that p rejects. -/
theorem rdropWhile_cons_neg (p : Char → Bool) (c : Char) (cs : List Char)
    (h : p c = false) :
    List.rdropWhile p (c :: cs) = c :: List.rdropWhile p cs := by
  simp only [List.rdropWhile, List.reverse_cons, List.dropWhile_append]
  by_cases hE : List.dropWhile p cs.reverse = []
  · simp [hE, List.dropWhile_cons, h]
  · simp [hE, List.isEmpty_iff, List.reverse_append]

/-- rdropWhile on a cons whose head p accepts: the head survives exactly
when something in the tail survives. -/
theorem rdropWhile_cons_pos (p : Char → Bool) (c : Char) (cs : List Char)
    (h : p c = true) :
    List.rdropWhile p (c :: cs) =
      if List.rdropWhile p cs = [] then [] else c :: List.rdropWhile p cs := by
  simp only [List.rdropWhile, List.reverse_cons, List.dropWhile_append]
  by_cases hE : List.dropWhile p cs.reverse = []
  · simp [hE, List.dropWhile_cons, h]
  · simp [hE, List.isEmpty_iff, List.reverse_append, List.reverse_eq_nil_iff]

/-- Stripping from the left and stripping from the right commute. -/
theorem dropWhile_rdropWhile_comm (p : Char → Bool) :
    ∀ l : List Char,
      (List.rdropWhile p l).dropWhile p = List.rdropWhile p (l.dropWhile p) := by
  intro l
  induction l with
  | nil => rfl
  | cons c cs ih =>
    by_cases hc : p c = true
    · by_cases hE : List.rdropWhile p cs = []
      · rw [rdropWhile_cons_pos p c cs hc, if_pos hE]
        have hall : ∀ x ∈ cs, p x := List.rdropWhile_eq_nil_iff.mp hE
        have hnil : List.dropWhile p cs = [] := List.dropWhile_eq_nil_iff.mpr hall
        rw [List.dropWhile_cons_of_pos hc, hnil]
        simp [List.rdropWhile]
      · rw [rdropWhile_cons_pos p c cs hc, if_neg hE,
          List.dropWhile_cons_of_pos hc, List.dropWhile_cons_of_pos hc, ih]
    · rw [rdropWhile_cons_neg p c cs (by simpa using hc),
        List.dropWhile_cons_of_neg hc, List.dropWhile_cons_of_neg hc,
        rdropWhile_cons_neg p c cs (by simpa using hc)]

/-- dropWhile on a reversed list is the reverse of rdropWhile. -/
theorem dropWhile_reverse (p : Char → Bool) (l : List Char) :
    List.dropWhile p l.reverse = (List.rdropWhile p l).reverse := by
  simp [List.rdropWhile]

/-- rdropWhile on a reversed list is the reverse of dropWhile. -/
theorem rdropWhile_reverse (p : Char → Bool) (l : List Char) :
    List.rdropWhile p l.reverse = (List.dropWhile p l).reverse := by
  simp [List.rdropWhile]

/-- Lowercasing commutes with stripping leading whitespace. -/
theorem map_pyLower_dropWhile (l : List Char) :
    (List.dropWhile pySpace l).map pyLower =
      List.dropWhile pySpace (l.map pyLower) := by
  rw [List.dropWhile_map]
  have hfun : pySpace ∘ pyLower = pySpace := by
    funext c
    exact pyLower_pySpace c
  rw [hfun]

/-- Lowercasing commutes with stripping trailing whitespace. -/
theorem map_pyLower_rdropWhile (l : List Char) :
    (List.rdropWhile pySpace l).map pyLower =
      List.rdropWhile pySpace (l.map pyLower) := by
  simp only [List.rdropWhile]
  rw [List.map_reverse, map_pyLower_dropWhile l.reverse, List.map_reverse]

/-- Lowercasing commutes with Python str.strip(). -/
theorem map_pyLower_pyStripWs (s : List Char) :
    (pyStripWs s).map pyLower = pyStripWs (s.map pyLower) := by
  simp only [pyStripWs, stripEnds]
  rw [map_pyLower_rdropWhile, map_pyLower_dropWhile]

/-- Stripping surrounding whitespace before collapsing runs does not
change the slug: the whitespace would have been collapsed into a leading
or trailing hyphen and stripped anyway. -/
theorem strip_absorb (t : List Char) :
    stripEnds (fun c => c == '-')
      (subRuns (fun c => ! isLowerAlnum c) '-' (pyStripWs t) false) =
    stripEnds (fun c => c == '-')
      (subRuns (fun c => ! isLowerAlnum c) '-' t false) := by
  have hpr : (fun c : Char => ! isLowerAlnum c) '-' = true := by decide
  have L5 := dropWhile_subRuns_dropWhile (fun c => ! isLowerAlnum c) pySpace '-'
    hpr pySpace_imp_not_alnum
  have R := subRuns_reverse (fun c => ! isLowerAlnum c) '-'
  have comm := dropWhile_rdropWhile_comm (fun c => c == '-')
  simp only [stripEnds, pyStripWs]
  rw [show List.rdropWhile pySpace (List.dropWhile pySpace t)
      = (List.dropWhile pySpace (List.dropWhile pySpace t).reverse).reverse
      from by simp [List.rdropWhile]]
  rw [R, dropWhile_reverse, rdropWhile_reverse, comm, L5, R, dropWhile_reverse,
    rdropWhile_reverse, List.reverse_reverse, comm, L5]

/-- The code slugify body equals the specification slug. -/
theorem slugify_core_eq (s : List Char) : slugify_core s = slug_spec s := by
  have hpr : (fun c : Char => ! isLowerAlnum c) '-' = true := by decide
  unfold slugify_core slug_spec subHyphens subNonAlnum
  rw [map_pyLower_pyStripWs,
    subRuns_idem (fun c => ! isLowerAlnum c) '-' hpr,
    subRuns_map_hyphenate]
  exact strip_absorb (s.map pyLower)

/-- Claim C8: slugify is deterministic (a pure function of its input) and
produces exactly the lowercased input with every maximal run of
non-alphanumeric characters collapsed to a single hyphen and
leading/trailing hyphens stripped (slug_spec), except that an empty
result is replaced by the fixed non-empty fallback token ("chap" in
gemini_polish.py, "chapter" in generate_one_chapter.py); in particular
both slugify variants never return an empty string. -/
theorem C8_slugify (s : List Char) :
    slugify_polish s =
      (if (slug_spec s).isEmpty then "chap".toList else slug_spec s) ∧
    slugify_polish s ≠ [] ∧
    slugify_chapter s =
      (if (slug_spec s).isEmpty then "chapter".toList else slug_spec s) ∧
    slugify_chapter s ≠ [] := by
  have hc := slugify_core_eq s
  refine ⟨?_, ?_, ?_, ?_⟩
  · simp only [slugify_polish, hc]
  · unfold slugify_polish
    split <;> rename_i hE
    · decide
    · simpa [List.isEmpty_iff] using hE
  · simp only [slugify_chapter, hc]
  · unfold slugify_chapter
    split <;> rename_i hE
    · decide
    · simpa [List.isEmpty_iff] using hE

/-! ## Response extraction (gemini_polish.py extract_polished_texts).
The response JSON is modelled structurally; Python operations that raise
(iterating a non-list, .get on a non-dict, string-joining a non-string)
are modelled in the Except monad with the exception class name as the
error value. -/

/-- A JSON value as parsed from the provider response. -/
inductive JVal where
  | null
  | jbool (b : Bool)
  | num (n : Int)
  | str (s : String)
  | arr (xs : List JVal)
  | obj (fields : List (String × JVal))

/-- Python dict.get(k): the value of the first binding of k, if any. -/
def getKey (fields : List (String × JVal)) (k : String) : Option JVal :=
  match fields with
  | [] => none
  | (k2, v) :: rest => if k2 = k then some v else getKey rest k

mutual

/-- Python repr of a JSON value, used by str() for non-string values
(containers are rendered structurally; the exact text of container
reprs is never load-bearing for the claims). -/
def jrepr : JVal → String
  | .null => "None"
  | .jbool true => "True"
  | .jbool false => "False"
  | .num n => toString n
  | .str s => "\x27" ++ s ++ "\x27"
  | .arr xs => "[" ++ String.intercalate ", " (jreprList xs) ++ "]"
  | .obj fs => "\x7b" ++ String.intercalate ", " (jreprFields fs) ++ "\x7d"

/-- jrepr mapped over a list of values. -/
def jreprList : List JVal → List String
  | [] => []
  | x :: xs => jrepr x :: jreprList xs

/-- jrepr of the key/value pairs of an object. -/
def jreprFields : List (String × JVal) → List String
  | [] => []
  | (k, v) :: xs => ("\x27" ++ k ++ "\x27: " ++ jrepr v) :: jreprFields xs

end

/-- Python str(): a string is itself, anything else is its repr. -/
def jstr : JVal → String
  | .str s => s
  | v => jrepr v

/-- One element of candidate["content"]["parts"]: part.get("text", "")
requires a dict part and a string (or absent) text field. -/
def partText (pv : JVal) : Except String String :=
  match pv with
  | .obj pf =>
    match getKey pf "text" with
    | none => .ok ""
    | some (.str t) => .ok t
    | some _ => .error "TypeError"
  | _ => .error "AttributeError"

/-- The loop `for part in parts: t += part.get("text", "")`. -/
def partsText (ps : List JVal) : Except String String :=
  match ps with
  | [] => .ok ""
  | p :: rest => do
    let t ← partText p
    let ts ← partsText rest
    pure (t ++ ts)

/-- One candidate: if c.get("content") is a dict, concatenate the text
parts; otherwise take c.get("content", "") as-is (possibly a non-string
value, which the later join will reject).  A non-dict candidate raises
AttributeError at c.get.  Iterating a non-list "parts" value follows
Python: an empty string or empty dict iterates zero times (t stays ""),
a non-empty one reaches part.get on a non-dict element (AttributeError),
and numbers/booleans/None are not iterable (TypeError). -/
def candText (c : JVal) : Except String JVal :=
  match c with
  | .obj cf =>
    match getKey cf "content" with
    | some (.obj contentFields) =>
      match getKey contentFields "parts" with
      | none => .ok (.str "")
      | some (.arr ps) => do
        let t ← partsText ps
        pure (.str t)
      | some (.str s) => if s = "" then .ok (.str "") else .error "AttributeError"
      | some (.obj pfs) =>
        match pfs with
        | [] => .ok (.str "")
        | _ :: _ => .error "AttributeError"
      | some _ => .error "TypeError"
    | some v => .ok v
    | none => .ok (.str "")
  | _ => .error "AttributeError"

/-- The loop over resp_json["candidates"]. -/
def candsTexts (cs : List JVal) : Except String (List JVal) :=
  match cs with
  | [] => .ok []
  | c :: rest => do
    let t ← candText c
    let ts ← candsTexts rest
    pure (t :: ts)

/-- Build `texts` from the response: iterate resp_json["candidates"] when
present.  Iterating a non-list follows Python: an empty string or empty
dict yields no iterations, a non-empty one hits .get on a non-dict
(AttributeError), and numbers/booleans/None are not iterable
(TypeError). -/
def respTexts (resp : List (String × JVal)) : Except String (List JVal) :=
  match getKey resp "candidates" with
  | none => .ok []
  | some (.arr cs) => candsTexts cs
  | some (.str s) => if s = "" then .ok [] else .error "AttributeError"
  | some (.obj fs) =>
    match fs with
    | [] => .ok []
    | _ :: _ => .error "AttributeError"
  | some _ => .error "TypeError"

/-- Python "\n".join(texts) requires every element to be a string. -/
def asStrAll : List JVal → Except String (List String)
  | [] => .ok []
  | .str s :: rest => do
    let ss ← asStrAll rest
    pure (s :: ss)
  | _ :: _ => .error "TypeError"

/-- joined = "\n".join(texts) if texts else "", after the fallback
texts.append(str(resp_json["output"])) when texts is empty and an
"output" key exists. -/
def extractJoined (resp : List (String × JVal)) : Except String String := do
  let texts ← respTexts resp
  let texts2 :=
    if texts.isEmpty then
      match getKey resp "output" with
      | some v => [JVal.str (jstr v)]
      | none => []
    else texts
  if texts2.isEmpty then pure ""
  else do
    let ss ← asStrAll texts2
    pure (String.intercalate "\n" ss)

/-- Python s.strip() on a string. -/
def pyStripStr (s : String) : String := (pyStripWs s.toList).asString

/-- The pre-padding candidate list `out` together with the stripped
joined text: split on the ===POLISHED=== marker keeping non-empty
stripped parts when the marker occurs, else the single stripped joined
text. -/
def extractOut (resp : List (String × JVal)) :
    Except String (List String × String) := do
  let joined ← extractJoined resp
  let out :=
    if strContains joined "===POLISHED===" then
      ((joined.splitOn "===POLISHED===").map pyStripStr).filter (fun p => p ≠ "")
    else [pyStripStr joined]
  pure (out, pyStripStr joined)

/-- The while-loop `while len(out) < expected_count:
out.append(joined.strip())`. -/
def padWhile (fill : String) (n : Nat) (l : List String) : List String :=
  if l.length < n then padWhile fill n (l ++ [fill]) else l
termination_by n - l.length
decreasing_by
  simp only [List.length_append, List.length_cons, List.length_nil]
  omega

/-- gemini_polish.py extract_polished_texts: build out, pad it with the
stripped joined text up to expected_count, and truncate to
expected_count. -/
def extract_polished_texts (resp : List (String × JVal)) (expected_count : Nat) :
    Except String (List String) := do
  let r ← extractOut resp
  pure ((padWhile r.2 expected_count r.1).take expected_count)

/-- The padding loop appends exactly enough copies of the fill text. -/
theorem padWhile_eq (fill : String) (n : Nat) :
    ∀ (k : Nat) (l : List String), n - l.length = k →
      padWhile fill n l = l ++ List.replicate k fill := by
  intro k
  induction k with
  | zero =>
    intro l hk
    rw [padWhile, if_neg (by omega)]
    simp
  | succ k ih =>
    intro l hk
    rw [padWhile, if_pos (by omega)]
    have hrec := ih (l ++ [fill]) (by simp only [List.length_append,
      List.length_cons, List.length_nil]; omega)
    rw [hrec]
    simp [List.replicate_succ]

/-- padWhile in closed form. -/
theorem padWhile_spec (fill : String) (n : Nat) (l : List String) :
    padWhile fill n l = l ++ List.replicate (n - l.length) fill :=
  padWhile_eq fill n (n - l.length) l rfl

/-- Claim C10, counterexample: extract_polished_texts does NOT return a
list for every response dictionary: when "candidates" holds a number,
Python raises TypeError while iterating it, so with expected_count = 1
no list of 1 string is returned. -/
theorem C10_cex_extract_raises :
    extract_polished_texts [("candidates", JVal.num 5)] 1 =
      Except.error "TypeError" := rfl

/-- Claim C10 (amended): whenever extract_polished_texts returns without
raising, the returned list has exactly expected_count strings: the
pre-padding list out is padded with the full stripped joined text up to
expected_count and truncated to the first expected_count; an exception
from extraction (malformed candidates/content/parts shapes) propagates. -/
theorem C10_extract_length :
    ∀ (resp : List (String × JVal)) (expected_count : Nat) (out : List String)
      (joined : String) (l : List String),
      (extractOut resp = .ok (out, joined) →
        extract_polished_texts resp expected_count =
          .ok ((out ++ List.replicate (expected_count - out.length) joined).take
            expected_count)) ∧
      (extract_polished_texts resp expected_count = .ok l →
        l.length = expected_count) ∧
      (∀ e, extractOut resp = .error e →
        extract_polished_texts resp expected_count = .error e) := by
  intro resp expected_count out joined l
  refine ⟨?_, ?_, ?_⟩
  · intro h
    unfold extract_polished_texts
    rw [h]
    show Except.ok ((padWhile joined expected_count out).take expected_count) = _
    rw [padWhile_spec]
  · intro h
    rcases ho : extractOut resp with e | r
    · have : extract_polished_texts resp expected_count = .error e := by
        unfold extract_polished_texts
        rw [ho]
        rfl
      rw [this] at h
      exact absurd h (by simp)
    · rcases r with ⟨o, j⟩
      have h2 : extract_polished_texts resp expected_count =
          .ok ((padWhile j expected_count o).take expected_count) := by
        unfold extract_polished_texts
        rw [ho]
        rfl
      rw [h2] at h
      have hl : l = (padWhile j expected_count o).take expected_count :=
        (Except.ok.inj h).symm
      subst hl
      rw [List.length_take, padWhile_spec, List.length_append,
        List.length_replicate]
      omega
  · intro e h
    unfold extract_polished_texts
    rw [h]
    rfl

/-- Witness for C10_extract_length: an empty response dictionary yields
out = [""], joined = "", and padding to 3 gives exactly 3 strings. -/
theorem C10_extract_length_witness :
    extract_polished_texts [] 3 = Except.ok ["", "", ""] := by
  have h := (C10_extract_length [] 3 [""] "" []).1 rfl
  rw [h]
  rfl

/-- Witness for C6_group_shape at concrete queues: a non-small first
eligible language ("Python") is returned alone, and a small one ("Lua")
is grouped with the next uncompleted list entry. -/
theorem C6_group_shape_witness :
    pick_next ["Python"] [] = ["Python"] ∧
    pick_next ["Lua", "Nim"] [] = ["Lua", "Nim"] := by
  constructor
  · exact ((C6_group_shape ["Python"] []).2.2 [] "Python" [] rfl
      (by simp) (by decide)).1 (by decide)
  · have h := ((C6_group_shape ["Lua", "Nim"] []).2.2 [] "Lua" ["Nim"] rfl
      (by simp) (by decide)).2 (by decide)
    exact (h.2 "Nim" [] rfl).2 (by decide)

/-- Witness for C8_slugify at a concrete title. -/
theorem C8_slugify_witness :
    slugify_polish "Hello, World!".toList =
      (if (slug_spec "Hello, World!".toList).isEmpty then "chap".toList
       else slug_spec "Hello, World!".toList) :=
  (C8_slugify "Hello, World!".toList).1
